import Mathlib

/-!
Verification development for the GraphSettings admin data-provider layer.

The TypeScript sources (`src/api/error.ts`, `src/dataProvider.ts`,
`src/api/scopedApiAdapter.ts`, `src/resources/scopedResources.ts`) are shallowly
embedded below.  JavaScript runtime values are modelled by the inductive type
`JVal`; JavaScript objects are insertion-ordered association lists (`JObj`) and
object spread / property assignment follow the ECMAScript rule that an
assignment to an existing key updates it in place, while a new key is appended.
JavaScript numbers are modelled by `Rat` (exact rationals); every numeric
operation used by this code base (integer tests, comparisons, subtraction) has
the same outcome on the float inputs it actually receives.  Strict equality
`===` is modelled structurally (`JVal.beq`); reference identity of objects is
not observable in the embedded fragment.  `Array.prototype.sort` (guaranteed
stable by ECMAScript) is modelled as a stable insertion sort by the comparator.
Promise rejection / `throw` is modelled with `Except HttpError`.
-/

namespace GraphSettings

/-- Model of a JavaScript runtime value. -/
inductive JVal where
  | undefined
  | null
  | bool (b : Bool)
  | num (q : Rat)
  | str (s : String)
  | arr (elems : List JVal)
  | obj (fields : List (String × JVal))

/-- A JavaScript object: insertion-ordered fields.  Objects produced by the
runtime always have pairwise distinct keys (`keysNodup`). -/
abbrev JObj := List (String × JVal)

mutual

/-- Structural model of JavaScript strict equality `===` on the values this
code base compares (primitives); object/array identity is approximated
structurally. -/
def JVal.beq : JVal → JVal → Bool
  | .undefined, .undefined => true
  | .null, .null => true
  | .bool a, .bool b => a == b
  | .num a, .num b => a == b
  | .str a, .str b => a == b
  | .arr a, .arr b => JVal.beqList a b
  | .obj a, .obj b => JVal.beqFields a b
  | _, _ => false

def JVal.beqList : List JVal → List JVal → Bool
  | [], [] => true
  | a :: as, b :: bs => JVal.beq a b && JVal.beqList as bs
  | _, _ => false

def JVal.beqFields : List (String × JVal) → List (String × JVal) → Bool
  | [], [] => true
  | (k1, v1) :: as, (k2, v2) :: bs => k1 == k2 && JVal.beq v1 v2 && JVal.beqFields as bs
  | _, _ => false

end

/-- Property read `o[k]` on an object, as an `Option`. -/
def jGetVal (o : JObj) (k : String) : Option JVal :=
  (o.find? (fun e => e.1 == k)).map (fun e => e.2)

/-- Property read `o[k]`, yielding `undefined` for a missing key (JS access). -/
def jGetValD (o : JObj) (k : String) : JVal :=
  (jGetVal o k).getD .undefined

/-- Property read `v[k]` on an arbitrary value; non-objects have none of the
keys this code base reads. -/
def jGet (v : JVal) (k : String) : Option JVal :=
  match v with
  | .obj fields => jGetVal fields k
  | _ => none

/-- Property read `v[k]` defaulting to `undefined`. -/
def jGetD (v : JVal) (k : String) : JVal :=
  (jGet v k).getD .undefined

/-- JavaScript property assignment `o[k] = v`: update in place when the key
exists, append otherwise. -/
def objSet (o : JObj) (k : String) (v : JVal) : JObj :=
  if o.any (fun e => e.1 == k) then
    o.map (fun e => if e.1 == k then (k, v) else e)
  else
    o ++ [(k, v)]

/-- Object spread `{ ...base, ...extra }`: assign each field of `extra` onto
`base` in order. -/
def objSpread (base : JObj) (extra : JObj) : JObj :=
  extra.foldl (fun acc e => objSet acc e.1 e.2) base

/-- JavaScript assignment on a string-valued map (used for `fieldErrors`). -/
def strAssign (m : List (String × String)) (k v : String) : List (String × String) :=
  if m.any (fun e => e.1 == k) then
    m.map (fun e => if e.1 == k then (k, v) else e)
  else
    m ++ [(k, v)]

/-- Lookup in a string-valued map. -/
def strLookup (m : List (String × String)) (k : String) : Option String :=
  (m.find? (fun e => e.1 == k)).map (fun e => e.2)

/-- The keys of an object are pairwise distinct (invariant of every object a
JavaScript runtime can construct). -/
def keysNodup (o : JObj) : Prop :=
  (o.map (fun e => e.1)).Nodup

instance (o : JObj) : Decidable (keysNodup o) := by
  unfold keysNodup; infer_instance

/-- Model of JavaScript number-to-string conversion, restricted to the values
this code base formats: integers print without a fractional part; other
rationals fall back to the numerator/denominator rendering (never reached on
the inputs relevant to the verified claims, which format strings and
integers). -/
def ratToJsString (q : Rat) : String :=
  if q.den = 1 then toString q.num else toString q

mutual

/-- Model of JavaScript `String(v)`. -/
def jsToString : JVal → String
  | .undefined => "undefined"
  | .null => "null"
  | .bool b => cond b "true" "false"
  | .num q => ratToJsString q
  | .str s => s
  | .arr xs => jsArrToString xs
  | .obj _ => "[object Object]"

/-- `Array.prototype.toString`: elements joined by commas, with `null` and
`undefined` elements rendered as the empty string. -/
def jsArrToString : List JVal → String
  | [] => ""
  | [x] => jsElemOfArrToString x
  | x :: y :: xs => jsElemOfArrToString x ++ "," ++ jsArrToString (y :: xs)

def jsElemOfArrToString : JVal → String
  | .undefined => ""
  | .null => ""
  | .bool b => cond b "true" "false"
  | .num q => ratToJsString q
  | .str s => s
  | .arr xs => jsArrToString xs
  | .obj _ => "[object Object]"

end

/-- `x ?? ""`:  nullish coalescing to the empty string (used before `String`). -/
def jsNullishToEmptyString : JVal → JVal
  | .undefined => .str ""
  | .null => .str ""
  | v => v

/-- Does the first character list start with the second? -/
def charListStartsWith : List Char → List Char → Bool
  | _, [] => true
  | [], _ :: _ => false
  | a :: as, b :: bs => a == b && charListStartsWith as bs

/-- Does the first character list contain the second as a contiguous run? -/
def charListContains : List Char → List Char → Bool
  | [], needle => needle.isEmpty
  | a :: as, needle => charListStartsWith (a :: as) needle || charListContains as needle

/-- Model of `String.prototype.includes`. -/
def jsIncludes (s sub : String) : Bool :=
  charListContains s.data sub.data

/-- ASCII lower-casing of one character. -/
def jsCharToLower (c : Char) : Char :=
  if 65 ≤ c.toNat && c.toNat ≤ 90 then Char.ofNat (c.toNat + 32) else c

/-- Model of `String.prototype.toLowerCase` (ASCII case folding, which covers
every string this code base lowercases). -/
def jsToLower (s : String) : String := ⟨s.data.map jsCharToLower⟩

/-- JavaScript `trim` whitespace. -/
def isJsWhitespace (c : Char) : Bool :=
  c == ' ' || c == '\t' || c == '\n' || c == '\r'

/-- Model of `String.prototype.trim`. -/
def jsTrim (s : String) : String :=
  ⟨((s.data.dropWhile isJsWhitespace).reverse.dropWhile isJsWhitespace).reverse⟩

/-- Code-point lexicographic order on character lists (the model of string
comparison). -/
def charListLt : List Char → List Char → Bool
  | [], [] => false
  | [], _ :: _ => true
  | _ :: _, [] => false
  | a :: as, b :: bs =>
    if a.toNat < b.toNat then true
    else if b.toNat < a.toNat then false
    else charListLt as bs

/-- Model of react-admin's `HttpError` body: the optional auxiliary fields the
embedded code places there. -/
structure ErrBody where
  code : Option String := none
  details : Option JVal := none
  errors : Option (List (String × String)) := none

/-- Model of react-admin's `HttpError` (message, HTTP status, optional body).
A body is attached only when the constructor receives one. -/
structure HttpError where
  message : String
  status : Int
  body : Option ErrBody := none

/- ---------------------------------------------------------------------------
src/api/error.ts
--------------------------------------------------------------------------- -/

/-- `typeof value === "object" && value !== null` (arrays included). -/
def isObject : JVal → Bool
  | .obj _ => true
  | .arr _ => true
  | _ => false

/-- `Array.isArray`. -/
def isArray : JVal → Bool
  | .arr _ => true
  | _ => false

def isString : JVal → Bool
  | .str _ => true
  | _ => false

/-- `isValidationError` from `error.ts`. -/
def isValidationError (value : JVal) : Bool :=
  if !(isObject value) then false
  else
    isArray (jGetD value "loc") && isString (jGetD value "msg") &&
      isString (jGetD value "type")

/-- `isHttpValidationError` from `error.ts`. -/
def isHttpValidationError (value : JVal) : Bool :=
  if !(isObject value) then false
  else
    match jGet value "detail" with
    | none => false
    | some d => isArray d && (match d with
        | .arr issues => issues.all isValidationError
        | _ => false)

/-- `isErrorResponse` from `error.ts`. -/
def isErrorResponse (value : JVal) : Bool :=
  if !(isObject value) || !(isObject (jGetD value "error")) then false
  else
    isString (jGetD (jGetD value "error") "code") &&
      isString (jGetD (jGetD value "error") "message")

/-- `toFieldPath` from `error.ts`: stringify the `loc` segments, drop every
segment equal to `"body"`, and join the remainder with `.` (an empty result
maps to `root.serverError`). -/
def toFieldPath (loc : List JVal) : String :=
  let filtered := (loc.map jsToString).filter (fun segment => segment != "body")
  if filtered.isEmpty then "root.serverError"
  else String.intercalate "." filtered

/-- The `loc` array of a validation issue (typed as an array upstream). -/
def issueLoc (issue : JVal) : List JVal :=
  match jGet issue "loc" with
  | some (.arr xs) => xs
  | _ => []

/-- The `msg` string of a validation issue (typed as a string upstream). -/
def issueMsg (issue : JVal) : String :=
  match jGet issue "msg" with
  | some (.str s) => s
  | _ => ""

/-- The `detail` issue list (`error.detail ?? []`). -/
def detailIssues (value : JVal) : List JVal :=
  match jGet value "detail" with
  | some (.arr issues) => issues
  | _ => []

/-- Payload produced by `parseValidationError`. -/
structure ValidationErrorPayload where
  message : String
  fieldErrors : List (String × String)

/-- `parseValidationError` from `error.ts`. -/
def parseValidationError (value : JVal) : ValidationErrorPayload :=
  let fieldErrors := (detailIssues value).foldl
    (fun acc issue => strAssign acc (toFieldPath (issueLoc issue)) (issueMsg issue)) []
  let message := ((fieldErrors.head?).map (fun e => e.2)).getD
    "Validation failed for this request."
  ⟨message, fieldErrors⟩

/-- The value thrown to `normalizeApiError`: an `HttpError` instance, a generic
`Error` instance (with its message), or any other JavaScript value. -/
inductive ApiErrorInput where
  | httpError (e : HttpError)
  | jsError (message : String)
  | value (v : JVal)

/-- The string content of a value typed as a string upstream. -/
def strOf (v : JVal) : String :=
  match v with
  | .str s => s
  | _ => ""

/-- `normalizeApiError` from `error.ts`. -/
def normalizeApiError (error : ApiErrorInput) (status : Int) : HttpError :=
  match error with
  | .httpError e => e
  | .jsError msg => ⟨msg, status, some { errors := some [("root.serverError", msg)] }⟩
  | .value v =>
    if isErrorResponse v then
      let e := jGetD v "error"
      let msg := strOf (jGetD e "message")
      ⟨msg, status, some { code := some (strOf (jGetD e "code"))
                           details := jGet e "details"
                           errors := some [("root.serverError", msg)] }⟩
    else if isHttpValidationError v then
      let parsed := parseValidationError v
      ⟨parsed.message, status, some { errors := some parsed.fieldErrors }⟩
    else
      ⟨"Unexpected API error", status,
        some { errors := some [("root.serverError", "Unexpected API error")] }⟩

/- ---------------------------------------------------------------------------
src/resources/scopedResources.ts
--------------------------------------------------------------------------- -/

/-- The closed set of scoped resource families. -/
inductive ScopedResourceName where
  | iconSets
  | layoutSets
  | linkSets
  | graphTypes
  | themes
deriving DecidableEq

/-- `scopedResourceNames` from `scopedResources.ts`. -/
def scopedResourceNames : List String :=
  ["icon-sets", "layout-sets", "link-sets", "graph-types", "themes"]

/-- `isScopedResourceName` from `scopedResources.ts`. -/
def isScopedResourceName (value : String) : Bool :=
  scopedResourceNames.contains value

/-- The string identifier of a scoped resource (the TypeScript union member). -/
def resourceNameStr : ScopedResourceName → String
  | .iconSets => "icon-sets"
  | .layoutSets => "layout-sets"
  | .linkSets => "link-sets"
  | .graphTypes => "graph-types"
  | .themes => "themes"

/-- Type narrowing of a string into the closed union (the counterpart of the
`isScopedResourceName` type guard). -/
def toScopedResourceName (value : String) : Option ScopedResourceName :=
  if value == "icon-sets" then some .iconSets
  else if value == "layout-sets" then some .layoutSets
  else if value == "link-sets" then some .linkSets
  else if value == "graph-types" then some .graphTypes
  else if value == "themes" then some .themes
  else none

/-- Per-resource metadata (`scopedResourceMeta`). -/
structure ScopedResourceMeta where
  name : ScopedResourceName
  label : String
  idField : String

/-- `scopedResourceMeta` from `scopedResources.ts`. -/
def scopedResourceMeta : ScopedResourceName → ScopedResourceMeta
  | .iconSets => ⟨.iconSets, "Icon Sets", "iconSetId"⟩
  | .layoutSets => ⟨.layoutSets, "Layout Sets", "layoutSetId"⟩
  | .linkSets => ⟨.linkSets, "Link Sets", "linkSetId"⟩
  | .graphTypes => ⟨.graphTypes, "Graph Types", "graphTypeId"⟩
  | .themes => ⟨.themes, "Themes", "themeId"⟩

/- ---------------------------------------------------------------------------
src/dataProvider.ts — validators and record mappers
--------------------------------------------------------------------------- -/

/-- Build the 400-status field error thrown by the validators. -/
def fieldError (message : String) (field : String) (fieldMessage : String) : HttpError :=
  ⟨message, 400, some { errors := some [(field, fieldMessage)] }⟩

/-- `ensureObject` from `dataProvider.ts` (plain objects only; arrays are
rejected). -/
def ensureObject (value : JVal) (field : String) : Except HttpError JObj :=
  match value with
  | .obj fields => .ok fields
  | _ => .error (fieldError s!"Field '{field}' must be an object" field "Must be an object")

/-- `ensureString` from `dataProvider.ts` (non-empty after trimming; returns
the original, untrimmed string). -/
def ensureString (value : JVal) (field : String) : Except HttpError String :=
  match value with
  | .str s =>
    if (jsTrim s).length == 0 then
      .error (fieldError s!"Field '{field}' must be a non-empty string" field
        "Must be a non-empty string")
    else .ok s
  | _ => .error (fieldError s!"Field '{field}' must be a non-empty string" field
      "Must be a non-empty string")

/-- `optionalString` from `dataProvider.ts` (returns the trimmed string when
non-blank, otherwise nothing). -/
def optionalString (value : JVal) : Option String :=
  match value with
  | .str s => if (jsTrim s).length > 0 then some (jsTrim s) else none
  | _ => none

/-- Model of JavaScript `Number(string)` restricted to decimal literals
(optionally signed, optional fractional part); other strings are treated as
`NaN` (`none`).  The admin forms only submit decimal numerals here. -/
def jsNumberOfString (s : String) : Option Rat :=
  let t := jsTrim s
  if t.isEmpty then some 0
  else
    match t.toInt? with
    | some n => some (n : Rat)
    | none =>
      match t.splitOn "." with
      | [intPart, fracPart] =>
        match intPart.toInt?, fracPart.toNat? with
        | some n, some f =>
          let frac : Rat := (f : Rat) / ((10 : Rat) ^ fracPart.length)
          some (if n < 0 || intPart.startsWith "-" then (n : Rat) - frac else (n : Rat) + frac)
        | _, _ => none
      | _ => none

/-- `ensurePositiveInteger` from `dataProvider.ts`; `none` plays the role of
`NaN`. -/
def ensurePositiveInteger (value : JVal) (field : String) : Except HttpError Rat :=
  let numericValue : Option Rat :=
    match value with
    | .num q => some q
    | .str s => jsNumberOfString s
    | _ => none
  match numericValue with
  | some q =>
    if q.den == 1 && 1 ≤ q then .ok q
    else .error (fieldError s!"Field '{field}' must be an integer >= 1" field
      "Must be an integer greater than or equal to 1")
  | none => .error (fieldError s!"Field '{field}' must be an integer >= 1" field
      "Must be an integer greater than or equal to 1")

/-- `ensureArray` from `dataProvider.ts`. -/
def ensureArray (value : JVal) (field : String) : Except HttpError (List JVal) :=
  match value with
  | .arr xs => .ok xs
  | _ => .error (fieldError s!"Field '{field}' must be an array" field "Must be an array")

/-- The error thrown by `ensureScopedResource` (constructed without a body). -/
def outOfScopeError (resource : String) : HttpError :=
  ⟨s!"Resource '{resource}' is out of scope", 400, none⟩

/-- `ensureScopedResource` from `dataProvider.ts`. -/
def ensureScopedResource (resource : String) : Except HttpError ScopedResourceName :=
  match toScopedResourceName resource with
  | some r => .ok r
  | none => .error (outOfScopeError resource)

/-- The `Identifier` values react-admin accepts: strings and numbers. -/
def isIdentifierValue : JVal → Bool
  | .str _ => true
  | .num _ => true
  | _ => false

/-- The error thrown by `extractRecordId` (constructed without a body). -/
def missingIdError (resource : ScopedResourceName) : HttpError :=
  ⟨s!"Record is missing '{(scopedResourceMeta resource).idField}'", 500, none⟩

/-- `extractRecordId` from `dataProvider.ts`. -/
def extractRecordId (resource : ScopedResourceName) (record : JObj) :
    Except HttpError JVal :=
  let idField := (scopedResourceMeta resource).idField
  match jGetVal record idField with
  | some (.str s) => .ok (.str s)
  | some (.num n) => .ok (.num n)
  | _ => .error (missingIdError resource)

/-- `mapSummaryToRaRecord` from `dataProvider.ts`: `{ id, ...rawSummary }`. -/
def mapSummaryToRaRecord (resource : ScopedResourceName) (summary : JVal) :
    Except HttpError JObj := do
  let name := resourceNameStr resource
  let rawSummary ← ensureObject summary s!"{name} summary"
  let id ← extractRecordId resource rawSummary
  .ok (objSpread [("id", id)] rawSummary)

/-- The draft sub-object used by `mapRecordToRaRecord`:
`rawRecord.draft !== undefined ? ensureObject(rawRecord.draft, "draft") : {}`. -/
def draftOf (rawRecord : JObj) : Except HttpError JObj :=
  match jGetValD rawRecord "draft" with
  | .undefined => .ok []
  | v => ensureObject v "draft"

/-- `mapRecordToRaRecord` from `dataProvider.ts`:
`{ id, ...rawRecord, ...draft }` where `draft` is the nested draft object when
present (and not `undefined`), else `{}`. -/
def mapRecordToRaRecord (resource : ScopedResourceName) (record : JVal) :
    Except HttpError JObj := do
  let name := resourceNameStr resource
  let rawRecord ← ensureObject record s!"{name} record"
  let id ← extractRecordId resource rawRecord
  let draft ← draftOf rawRecord
  .ok (objSpread (objSpread [("id", id)] rawRecord) draft)

/- ---------------------------------------------------------------------------
src/dataProvider.ts — list query engine
--------------------------------------------------------------------------- -/

/-- `compareValues` from `dataProvider.ts`: numeric subtraction when both
sides are numbers, otherwise a case-insensitive comparison of
`String(x ?? "")`; `localeCompare` is modelled as code-point order on the
lowercased strings (reported as a sign). -/
def compareValues (left right : JVal) : Rat :=
  match left, right with
  | .num a, .num b => a - b
  | l, r =>
    let normalizedLeft := jsToLower (jsToString (jsNullishToEmptyString l))
    let normalizedRight := jsToLower (jsToString (jsNullishToEmptyString r))
    if charListLt normalizedLeft.data normalizedRight.data then -1
    else if charListLt normalizedRight.data normalizedLeft.data then 1
    else 0

/-- A filter entry is dropped by `matchesFilter` when its value is nullish or
a blank string. -/
def isBlankFilterValue : JVal → Bool
  | .null => true
  | .undefined => true
  | .str s => (jsTrim s).length == 0
  | _ => false

/-- One step of the `matchesFilter` loop: the free-text `q` check when the key
is `q` with a string value, otherwise strict equality against the record
field. -/
def matchesFilterEntry (record : JObj) (key : String) (value : JVal) : Bool :=
  if key == "q" then
    match value with
    | .str s =>
      let query := jsToLower s
      (record.map (fun e => e.2)).any (fun candidate =>
        jsIncludes (jsToLower (jsToString (jsNullishToEmptyString candidate))) query)
    | v => JVal.beq (jGetValD record key) v
  else
    JVal.beq (jGetValD record key) value

/-- `matchesFilter` from `dataProvider.ts`. -/
def matchesFilter (record : JObj) (filter : Option JObj) : Bool :=
  match filter with
  | none => true
  | some f =>
    let entries := f.filter (fun e => !(isBlankFilterValue e.2))
    if entries.isEmpty then true
    else entries.all (fun e => matchesFilterEntry record e.1 e.2)

/-- Stable insertion step: the new element goes before the first element it
compares strictly below, hence after every element it ties with. -/
def jsSortInsert (lt : α → α → Bool) (x : α) : List α → List α
  | [] => [x]
  | y :: ys => if lt x y then x :: y :: ys else y :: jsSortInsert lt x ys

/-- Model of the (stable) `Array.prototype.sort` with a comparator: for a
consistent comparator this is the unique stable sort. -/
def jsSortBy (cmp : α → α → Rat) (xs : List α) : List α :=
  xs.foldl (fun acc x => jsSortInsert (fun a b => decide (cmp a b < 0)) x acc) []

inductive SortOrder where
  | ASC
  | DESC
deriving DecidableEq

structure SortParam where
  field : String
  order : SortOrder

structure Pagination where
  page : Int
  perPage : Int

structure ListParams where
  pagination : Option Pagination := none
  sort : Option SortParam := none
  filter : Option JObj := none

/-- Model of `Array.prototype.slice(start, stop)`. -/
def jsSlice (xs : List α) (start stop : Int) : List α :=
  let len : Int := xs.length
  let s := if start < 0 then max (len + start) 0 else min start len
  let e := if stop < 0 then max (len + stop) 0 else min stop len
  (xs.drop s.toNat).take (e - s).toNat

/-- `paginateAndSort` from `dataProvider.ts`. -/
def paginateAndSort (records : List JObj) (params : ListParams) :
    List JObj × Nat :=
  let filtered := records.filter (fun record => matchesFilter record params.filter)
  let sorted := match params.sort with
    | none => filtered
    | some sort =>
      let sortOrderMultiplier : Rat := if sort.order = .ASC then 1 else -1
      jsSortBy (fun left right =>
        compareValues (jGetValD left sort.field) (jGetValD right sort.field) *
          sortOrderMultiplier) filtered
  let total := sorted.length
  let page := (params.pagination.map (fun p => p.page)).getD 1
  let perPage := (params.pagination.map (fun p => p.perPage)).getD 25
  let startIndex := max (page - 1) 0 * perPage
  (jsSlice sorted startIndex (startIndex + perPage), total)

/- ---------------------------------------------------------------------------
src/dataProvider.ts — payload builders
--------------------------------------------------------------------------- -/

/-- `buildIconSetCreatePayload`. -/
def buildIconSetCreatePayload (data : JObj) : Except HttpError JObj := do
  let iconSetId ← ensureString (jGetValD data "iconSetId") "iconSetId"
  let name ← ensureString (jGetValD data "name") "name"
  let entries ← ensureObject (jGetValD data "entries") "entries"
  .ok [("iconSetId", .str iconSetId), ("name", .str name), ("entries", .obj entries)]

/-- `buildIconSetUpdatePayload`. -/
def buildIconSetUpdatePayload (data : JObj) : Except HttpError JObj := do
  let name ← ensureString (jGetValD data "name") "name"
  let entries ← ensureObject (jGetValD data "entries") "entries"
  .ok [("name", .str name), ("entries", .obj entries)]

/-- `buildLayoutSetCreatePayload`. -/
def buildLayoutSetCreatePayload (data : JObj) : Except HttpError JObj := do
  let layoutSetId ← ensureString (jGetValD data "layoutSetId") "layoutSetId"
  let name ← ensureString (jGetValD data "name") "name"
  let elkSettings ← ensureObject (jGetValD data "elkSettings") "elkSettings"
  .ok [("layoutSetId", .str layoutSetId), ("name", .str name),
       ("elkSettings", .obj elkSettings)]

/-- `buildLayoutSetUpdatePayload`. -/
def buildLayoutSetUpdatePayload (data : JObj) : Except HttpError JObj := do
  let name ← ensureString (jGetValD data "name") "name"
  let elkSettings ← ensureObject (jGetValD data "elkSettings") "elkSettings"
  .ok [("name", .str name), ("elkSettings", .obj elkSettings)]

/-- `buildLinkSetCreatePayload`. -/
def buildLinkSetCreatePayload (data : JObj) : Except HttpError JObj := do
  let linkSetId ← ensureString (jGetValD data "linkSetId") "linkSetId"
  let name ← ensureString (jGetValD data "name") "name"
  let entries ← ensureObject (jGetValD data "entries") "entries"
  .ok [("linkSetId", .str linkSetId), ("name", .str name), ("entries", .obj entries)]

/-- `buildLinkSetUpdatePayload`. -/
def buildLinkSetUpdatePayload (data : JObj) : Except HttpError JObj := do
  let name ← ensureString (jGetValD data "name") "name"
  let entries ← ensureObject (jGetValD data "entries") "entries"
  .ok [("name", .str name), ("entries", .obj entries)]

/-- `buildLayoutSetRef`. -/
def buildLayoutSetRef (data : JVal) (fieldName : String) : Except HttpError JObj := do
  let value ← ensureObject data fieldName
  let layoutSetId ← ensureString (jGetValD value "layoutSetId")
    s!"{fieldName}.layoutSetId"
  let layoutSetVersion ← ensurePositiveInteger (jGetValD value "layoutSetVersion")
    s!"{fieldName}.layoutSetVersion"
  let checksum := optionalString (jGetValD value "checksum")
  .ok [("layoutSetId", .str layoutSetId), ("layoutSetVersion", .num layoutSetVersion),
       ("checksum", (checksum.map JVal.str).getD .null)]

/-- `buildLinkSetRef`. -/
def buildLinkSetRef (data : JVal) (fieldName : String) : Except HttpError JObj := do
  let value ← ensureObject data fieldName
  let linkSetId ← ensureString (jGetValD value "linkSetId") s!"{fieldName}.linkSetId"
  let linkSetVersion ← ensurePositiveInteger (jGetValD value "linkSetVersion")
    s!"{fieldName}.linkSetVersion"
  let checksum := optionalString (jGetValD value "checksum")
  .ok [("linkSetId", .str linkSetId), ("linkSetVersion", .num linkSetVersion),
       ("checksum", (checksum.map JVal.str).getD .null)]

/-- One element of `buildIconSetRefs`. -/
def buildIconSetRefEntry (fieldName : String) (entry : JVal) (index : Nat) :
    Except HttpError JObj := do
  let refObject ← ensureObject entry s!"{fieldName}[{index}]"
  let iconSetId ← ensureString (jGetValD refObject "iconSetId")
    s!"{fieldName}[{index}].iconSetId"
  let iconSetVersion ← ensurePositiveInteger (jGetValD refObject "iconSetVersion")
    s!"{fieldName}[{index}].iconSetVersion"
  let checksum := optionalString (jGetValD refObject "checksum")
  .ok [("iconSetId", .str iconSetId), ("iconSetVersion", .num iconSetVersion),
       ("checksum", (checksum.map JVal.str).getD .null)]

/-- `buildIconSetRefs` (non-empty array of references). -/
def buildIconSetRefs (data : JVal) (fieldName : String) :
    Except HttpError (List JObj) := do
  let entries ← ensureArray data fieldName
  let refs ← entries.enum.mapM (fun e => buildIconSetRefEntry fieldName e.2 e.1)
  if refs.isEmpty then
    .error ⟨"iconSetRefs must include at least one item", 400,
      some { errors := some [("iconSetRefs", "At least one icon set reference is required")] }⟩
  else .ok refs

/-- The `iconConflictPolicy` fallback shared by the graph-type builders. -/
def iconConflictPolicyOf (data : JObj) : String :=
  let conflictPolicy := (optionalString (jGetValD data "iconConflictPolicy")).getD "reject"
  if conflictPolicy == "reject" || conflictPolicy == "first-wins" ||
      conflictPolicy == "last-wins" then conflictPolicy
  else "reject"

/-- `buildGraphTypeCreatePayload`. -/
def buildGraphTypeCreatePayload (data : JObj) : Except HttpError JObj := do
  let graphTypeId ← ensureString (jGetValD data "graphTypeId") "graphTypeId"
  let name ← ensureString (jGetValD data "name") "name"
  let layoutSetRef ← buildLayoutSetRef (jGetValD data "layoutSetRef") "layoutSetRef"
  let iconSetRefs ← buildIconSetRefs (jGetValD data "iconSetRefs") "iconSetRefs"
  let linkSetRef ← buildLinkSetRef (jGetValD data "linkSetRef") "linkSetRef"
  .ok [("graphTypeId", .str graphTypeId), ("name", .str name),
       ("layoutSetRef", .obj layoutSetRef),
       ("iconSetRefs", .arr (iconSetRefs.map JVal.obj)),
       ("linkSetRef", .obj linkSetRef),
       ("iconConflictPolicy", .str (iconConflictPolicyOf data))]

/-- `buildGraphTypeUpdatePayload`. -/
def buildGraphTypeUpdatePayload (data : JObj) : Except HttpError JObj := do
  let name ← ensureString (jGetValD data "name") "name"
  let layoutSetRef ← buildLayoutSetRef (jGetValD data "layoutSetRef") "layoutSetRef"
  let iconSetRefs ← buildIconSetRefs (jGetValD data "iconSetRefs") "iconSetRefs"
  let linkSetRef ← buildLinkSetRef (jGetValD data "linkSetRef") "linkSetRef"
  .ok [("name", .str name), ("layoutSetRef", .obj layoutSetRef),
       ("iconSetRefs", .arr (iconSetRefs.map JVal.obj)),
       ("linkSetRef", .obj linkSetRef),
       ("iconConflictPolicy", .str (iconConflictPolicyOf data))]

/-- `buildThemeCreatePayload`. -/
def buildThemeCreatePayload (data : JObj) : Except HttpError JObj := do
  let themeId ← ensureString (jGetValD data "themeId") "themeId"
  let name ← ensureString (jGetValD data "name") "name"
  let cssBody ← ensureString (jGetValD data "cssBody") "cssBody"
  match jGetValD data "variables" with
  | .undefined => .ok [("themeId", .str themeId), ("name", .str name),
      ("cssBody", .str cssBody)]
  | v => do
    let vars ← ensureObject v "variables"
    .ok [("themeId", .str themeId), ("name", .str name), ("cssBody", .str cssBody),
         ("variables", .obj vars)]

/-- `buildThemeUpdatePayload`. -/
def buildThemeUpdatePayload (data : JObj) : Except HttpError JObj := do
  let name ← ensureString (jGetValD data "name") "name"
  let cssBody ← ensureString (jGetValD data "cssBody") "cssBody"
  match jGetValD data "variables" with
  | .undefined => .ok [("name", .str name), ("cssBody", .str cssBody)]
  | v => do
    let vars ← ensureObject v "variables"
    .ok [("name", .str name), ("cssBody", .str cssBody), ("variables", .obj vars)]

/-- `buildCreatePayload`: dispatch over the closed resource set. -/
def buildCreatePayload (resource : ScopedResourceName) (data : JObj) :
    Except HttpError JObj :=
  match resource with
  | .iconSets => buildIconSetCreatePayload data
  | .layoutSets => buildLayoutSetCreatePayload data
  | .linkSets => buildLinkSetCreatePayload data
  | .graphTypes => buildGraphTypeCreatePayload data
  | .themes => buildThemeCreatePayload data

/-- `buildUpdatePayload`: dispatch over the closed resource set. -/
def buildUpdatePayload (resource : ScopedResourceName) (data : JObj) :
    Except HttpError JObj :=
  match resource with
  | .iconSets => buildIconSetUpdatePayload data
  | .layoutSets => buildLayoutSetUpdatePayload data
  | .linkSets => buildLinkSetUpdatePayload data
  | .graphTypes => buildGraphTypeUpdatePayload data
  | .themes => buildThemeUpdatePayload data

/- ---------------------------------------------------------------------------
src/dataProvider.ts — provider operations
--------------------------------------------------------------------------- -/

/-- Abstract model of the scoped API adapter the provider is wired to: each
operation either rejects with a normalized error or resolves to backend
payloads.  The provider's behaviour is proved for every adapter, which is what
makes "before any adapter call" statable: a result independent of the adapter
cannot have consulted it. -/
structure AdapterModel where
  list : ScopedResourceName → Except HttpError (List JVal)
  get : ScopedResourceName → String → Except HttpError JVal
  create : ScopedResourceName → JVal → Except HttpError JVal
  update : ScopedResourceName → String → JVal → Except HttpError JVal
  delete : ScopedResourceName → String → Except HttpError Unit

structure GetListParams where
  pagination : Option Pagination := none
  sort : Option SortParam := none
  filter : Option JObj := none

structure GetOneParams where
  id : JVal

structure GetManyParams where
  ids : List JVal

structure GetManyReferenceParams where
  target : String
  id : JVal
  pagination : Option Pagination := none
  sort : Option SortParam := none
  filter : Option JObj := none

structure CreateParams where
  data : JVal

structure UpdateParams where
  id : JVal
  data : JVal

structure UpdateManyParams where
  ids : List JVal
  data : JVal

/-- `getRecord` helper (`adapter.get` then `mapRecordToRaRecord`); `String(id)`
is the JS string conversion. -/
def getRecord (adapter : AdapterModel) (resource : ScopedResourceName) (id : JVal) :
    Except HttpError JObj := do
  let record ← adapter.get resource (jsToString id)
  mapRecordToRaRecord resource record

/-- `getList` from the data provider. -/
def providerGetList (adapter : AdapterModel) (resource : String)
    (params : GetListParams) : Except HttpError (List JObj × Nat) := do
  let scopedResource ← ensureScopedResource resource
  let list ← adapter.list scopedResource
  let mapped ← list.mapM (fun item => mapSummaryToRaRecord scopedResource item)
  .ok (paginateAndSort mapped ⟨params.pagination, params.sort, params.filter⟩)

/-- `getOne` from the data provider. -/
def providerGetOne (adapter : AdapterModel) (resource : String)
    (params : GetOneParams) : Except HttpError JObj := do
  let scopedResource ← ensureScopedResource resource
  getRecord adapter scopedResource params.id

/-- `getMany` from the data provider (`Promise.all` sequenced left to right;
the first rejection wins either way). -/
def providerGetMany (adapter : AdapterModel) (resource : String)
    (params : GetManyParams) : Except HttpError (List JObj) := do
  let scopedResource ← ensureScopedResource resource
  params.ids.mapM (fun id => getRecord adapter scopedResource id)

/-- `getManyReference` from the data provider: the list path with an added
equality filter `[target]: id`. -/
def providerGetManyReference (adapter : AdapterModel) (resource : String)
    (params : GetManyReferenceParams) : Except HttpError (List JObj × Nat) := do
  let scopedResource ← ensureScopedResource resource
  let list ← adapter.list scopedResource
  let mapped ← list.mapM (fun item => mapSummaryToRaRecord scopedResource item)
  let mergedFilter := objSet (params.filter.getD []) params.target params.id
  .ok (paginateAndSort mapped ⟨params.pagination, params.sort, some mergedFilter⟩)

/-- `create` from the data provider. -/
def providerCreate (adapter : AdapterModel) (resource : String)
    (params : CreateParams) : Except HttpError JObj := do
  let scopedResource ← ensureScopedResource resource
  let data ← ensureObject params.data "data"
  let payload ← buildCreatePayload scopedResource data
  let created ← adapter.create scopedResource (.obj payload)
  mapRecordToRaRecord scopedResource created

/-- `update` from the data provider. -/
def providerUpdate (adapter : AdapterModel) (resource : String)
    (params : UpdateParams) : Except HttpError JObj := do
  let scopedResource ← ensureScopedResource resource
  let data ← ensureObject params.data "data"
  let payload ← buildUpdatePayload scopedResource data
  let updated ← adapter.update scopedResource (jsToString params.id) (.obj payload)
  mapRecordToRaRecord scopedResource updated

/-- `updateMany` from the data provider. -/
def providerUpdateMany (adapter : AdapterModel) (resource : String)
    (params : UpdateManyParams) : Except HttpError (List JVal) := do
  let scopedResource ← ensureScopedResource resource
  let data ← ensureObject params.data "data"
  let payload ← buildUpdatePayload scopedResource data
  let updates ← params.ids.mapM (fun id =>
    adapter.update scopedResource (jsToString id) (.obj payload))
  updates.mapM (fun record => do
    let raw ← ensureObject record "record"
    extractRecordId scopedResource raw)

/-- The fixed not-supported error thrown by `delete` and `deleteMany`. -/
def deleteNotSupportedError : HttpError :=
  ⟨"Delete is not supported for these resources by the current API.", 405,
    some { errors := some [("root.serverError",
      "Delete is not supported for these resources by the current API.")] }⟩

/-- `delete` from the data provider: rejects unconditionally, without touching
its arguments or the adapter. -/
def providerDelete (_adapter : AdapterModel) (_resource : String) (_params : JVal) :
    Except HttpError JObj :=
  .error deleteNotSupportedError

/-- `deleteMany` from the data provider: rejects unconditionally, without
touching its arguments or the adapter. -/
def providerDeleteMany (_adapter : AdapterModel) (_resource : String) (_params : JVal) :
    Except HttpError (List JVal) :=
  .error deleteNotSupportedError

/- ---------------------------------------------------------------------------
src/api/scopedApiAdapter.ts — stage/version query construction
--------------------------------------------------------------------------- -/

inductive ResourceStage where
  | draft
  | published
deriving DecidableEq

structure StageVersionQuery where
  stage : Option ResourceStage := none
  version : Option Rat := none

/-- The error thrown by `positiveIntegerOrUndefined`. -/
def versionGuardError : HttpError :=
  ⟨"Version must be an integer greater than or equal to 1", 400,
    some { errors := some [("version", "Must be an integer greater than or equal to 1")] }⟩

/-- `positiveIntegerOrUndefined` from `scopedApiAdapter.ts`
(`Number.isInteger` on a rational is `den = 1`). -/
def positiveIntegerOrUndefined (value : Option Rat) :
    Except HttpError (Option Rat) :=
  match value with
  | none => .ok none
  | some v =>
    if !(v.den == 1) || v < 1 then .error versionGuardError
    else .ok (some v)

/-- The per-resource query-parameter name for the version. -/
def versionParamName : ScopedResourceName → String
  | .iconSets => "icon_set_version"
  | .layoutSets => "layout_set_version"
  | .linkSets => "link_set_version"
  | .graphTypes => "graph_type_version"
  | .themes => "theme_version"

/-- The query object `bundleQueryFor` produces: the optional stage plus the
resource-specific version parameter. -/
structure BundleQuery where
  stage : Option ResourceStage
  versionParam : String
  version : Option Rat

/-- `bundleQueryFor` from `scopedApiAdapter.ts`. -/
def bundleQueryFor (resource : ScopedResourceName) (query : StageVersionQuery) :
    Except HttpError BundleQuery := do
  let stage := query.stage
  let version ← positiveIntegerOrUndefined query.version
  .ok ⟨stage, versionParamName resource, version⟩

/-- The HTTP request `getBundle` would issue: constructed entirely before any
network activity, so a validation failure here proves no request is sent. -/
structure BundleRequest where
  path : String
  query : BundleQuery

/-- The request-construction phase of `getBundle`: build the query parameters
(running the version guard), then the path.  The network exchange happens only
after this succeeds. -/
def getBundleRequest (resource : ScopedResourceName) (id : String)
    (query : StageVersionQuery) : Except HttpError BundleRequest := do
  let queryParams ← bundleQueryFor resource query
  let name := resourceNameStr resource
  .ok ⟨s!"/v1/{name}/{id}/bundle", queryParams⟩

/- ---------------------------------------------------------------------------
Lemmas about the object model
--------------------------------------------------------------------------- -/

/-- The value of the last assignment to a key while folding an object's fields
(the value an object spread leaves behind). -/
def lookupLast : JObj → String → Option JVal
  | [], _ => none
  | e :: es, k =>
    match lookupLast es k with
    | some v => some v
    | none => if e.1 == k then some e.2 else none

theorem jGetVal_nil (k : String) : jGetVal [] k = none := rfl

theorem jGetVal_cons (e : String × JVal) (es : JObj) (k : String) :
    jGetVal (e :: es) k = if e.1 == k then some e.2 else jGetVal es k := by
  simp only [jGetVal, List.find?]
  by_cases h : e.1 == k <;> simp [h]

theorem jGetVal_eq_none_iff (o : JObj) (k : String) :
    jGetVal o k = none ↔ k ∉ o.map (fun e => e.1) := by
  induction o with
  | nil => simp [jGetVal]
  | cons e es ih =>
    rw [jGetVal_cons]
    by_cases h : e.1 = k
    · simp [h]
    · have hbeq : (e.1 == k) = false := by simp [h]
      simp [hbeq, ih, h, Ne.symm h]

theorem lookupLast_eq_none_iff (o : JObj) (k : String) :
    lookupLast o k = none ↔ k ∉ o.map (fun e => e.1) := by
  induction o with
  | nil => simp [lookupLast]
  | cons e es ih =>
    simp only [lookupLast]
    cases hlast : lookupLast es k with
    | some v =>
      have : k ∈ es.map (fun e => e.1) := by
        by_contra hmem
        rw [← ih] at hmem
        simp [hmem] at hlast
      simp [this]
    | none =>
      by_cases h : e.1 = k
      · simp [h]
      · have hbeq : (e.1 == k) = false := by simp [h]
        simp [hbeq, ih.mp hlast, h, Ne.symm h]

theorem lookupLast_eq_jGetVal_of_nodup (o : JObj) (k : String)
    (h : keysNodup o) : lookupLast o k = jGetVal o k := by
  induction o with
  | nil => rfl
  | cons e es ih =>
    have hnd : keysNodup es := (List.nodup_cons.mp h).2
    have hnotin : e.1 ∉ es.map (fun x => x.1) := (List.nodup_cons.mp h).1
    rw [jGetVal_cons]
    simp only [lookupLast, ih hnd]
    by_cases hk : e.1 = k
    · subst hk
      have : jGetVal es e.1 = none := (jGetVal_eq_none_iff es e.1).mpr hnotin
      simp [this]
    · have hbeq : (e.1 == k) = false := by simp [hk]
      cases hv : jGetVal es k <;> simp [hbeq]

theorem jGetVal_of_mem_of_nodup (o : JObj) (k : String) (v : JVal)
    (hnd : keysNodup o) (hmem : (k, v) ∈ o) : jGetVal o k = some v := by
  induction o with
  | nil => cases hmem
  | cons e es ih =>
    rw [jGetVal_cons]
    rcases List.mem_cons.mp hmem with heq | htail
    · subst heq; simp
    · have hnotin : e.1 ∉ es.map (fun x => x.1) := (List.nodup_cons.mp hnd).1
      have hke : e.1 ≠ k := by
        intro h
        subst h
        exact hnotin (List.mem_map.mpr ⟨(e.1, v), htail, rfl⟩)
      have hbeq : (e.1 == k) = false := by simp [hke]
      simp [hbeq, ih (List.nodup_cons.mp hnd).2 htail]

theorem objSet_eq_update (o : JObj) (k : String) (v : JVal)
    (h : o.any (fun e => e.1 == k)) :
    objSet o k v = o.map (fun e => if e.1 == k then (k, v) else e) := by
  simp [objSet, h]

theorem objSet_eq_append (o : JObj) (k : String) (v : JVal)
    (h : ¬ o.any (fun e => e.1 == k)) :
    objSet o k v = o ++ [(k, v)] := by
  unfold objSet
  rw [if_neg h]

theorem jGetVal_update_self (o : JObj) (k : String) (v : JVal)
    (h : o.any (fun e => e.1 == k)) :
    jGetVal (o.map (fun e => if e.1 == k then (k, v) else e)) k = some v := by
  induction o with
  | nil => simp at h
  | cons e es ih =>
    by_cases he : e.1 = k
    · simp [jGetVal_cons, he]
    · have hbeq : (e.1 == k) = false := by simp [he]
      have h' : es.any (fun e => e.1 == k) := by
        simpa [List.any_cons, hbeq] using h
      rw [List.map_cons, if_neg (by simp [he]), jGetVal_cons,
        if_neg (by simp [he])]
      exact ih h'

theorem jGetVal_update_other (o : JObj) (k k' : String) (v : JVal)
    (h : k' ≠ k) :
    jGetVal (o.map (fun e => if e.1 == k then (k, v) else e)) k' = jGetVal o k' := by
  have hkk' : ¬ k = k' := Ne.symm h
  induction o with
  | nil => rfl
  | cons e es ih =>
    simp only [List.map_cons]
    by_cases he : e.1 = k
    · rw [if_pos (by simp [he])]
      rw [jGetVal_cons, jGetVal_cons]
      rw [if_neg (by simp [hkk'])]
      rw [if_neg (by simp [he, hkk'])]
      exact ih
    · rw [if_neg (by simp [he])]
      rw [jGetVal_cons, jGetVal_cons]
      by_cases hk'e : e.1 = k'
      · rw [if_pos (by simp [hk'e]), if_pos (by simp [hk'e])]
      · rw [if_neg (by simp [hk'e]), if_neg (by simp [hk'e])]
        exact ih

theorem jGetVal_append_single_self (o : JObj) (k : String) (v : JVal)
    (h : ¬ o.any (fun e => e.1 == k)) :
    jGetVal (o ++ [(k, v)]) k = some v := by
  induction o with
  | nil => simp [jGetVal_cons]
  | cons e es ih =>
    have hbeq : (e.1 == k) = false := by
      by_contra hc
      simp only [Bool.not_eq_false] at hc
      simp [List.any_cons, hc] at h
    have h' : ¬ es.any (fun e => e.1 == k) := by
      simpa [List.any_cons, hbeq] using h
    rw [List.cons_append, jGetVal_cons]
    simp only [hbeq, if_false]
    exact ih h'

theorem jGetVal_append_single_other (o : JObj) (k k' : String) (v : JVal)
    (h : k' ≠ k) :
    jGetVal (o ++ [(k, v)]) k' = jGetVal o k' := by
  have hkk' : ¬ k = k' := Ne.symm h
  induction o with
  | nil =>
    rw [List.nil_append, jGetVal_cons]
    rw [if_neg (by simp [hkk'])]
  | cons e es ih =>
    rw [List.cons_append, jGetVal_cons, jGetVal_cons]
    by_cases hk'e : e.1 = k'
    · rw [if_pos (by simp [hk'e]), if_pos (by simp [hk'e])]
    · rw [if_neg (by simp [hk'e]), if_neg (by simp [hk'e])]
      exact ih

theorem jGetVal_objSet_self (o : JObj) (k : String) (v : JVal) :
    jGetVal (objSet o k v) k = some v := by
  by_cases h : o.any (fun e => e.1 == k)
  · rw [objSet_eq_update o k v h]
    exact jGetVal_update_self o k v h
  · rw [objSet_eq_append o k v h]
    exact jGetVal_append_single_self o k v h

theorem jGetVal_objSet_other (o : JObj) (k k' : String) (v : JVal)
    (h : k' ≠ k) : jGetVal (objSet o k v) k' = jGetVal o k' := by
  by_cases hany : o.any (fun e => e.1 == k)
  · rw [objSet_eq_update o k v hany]
    exact jGetVal_update_other o k k' v h
  · rw [objSet_eq_append o k v hany]
    exact jGetVal_append_single_other o k k' v h

theorem jGetVal_objSpread (base extra : JObj) (k : String) :
    jGetVal (objSpread base extra) k =
      match lookupLast extra k with
      | some v => some v
      | none => jGetVal base k := by
  induction extra generalizing base with
  | nil => rfl
  | cons e es ih =>
    show jGetVal (objSpread (objSet base e.1 e.2) es) k = _
    rw [ih]
    simp only [lookupLast]
    cases hlast : lookupLast es k with
    | some v => rfl
    | none =>
      by_cases hek : e.1 = k
      · subst hek
        simp [jGetVal_objSet_self]
      · have hbeq : (e.1 == k) = false := by simp [hek]
        simp [hbeq, jGetVal_objSet_other base e.1 k e.2 (Ne.symm hek)]

theorem keys_update (o : JObj) (k : String) (v : JVal) :
    (o.map (fun e => if e.1 == k then (k, v) else e)).map (fun e => e.1) =
      o.map (fun e => e.1) := by
  induction o with
  | nil => rfl
  | cons e es ih =>
    simp only [List.map_cons]
    by_cases he : e.1 = k
    · rw [if_pos (by simp [he])]
      simp only [List.map_cons, ih]
      rw [he]
    · rw [if_neg (by simp [he])]
      simp only [List.map_cons, ih]

theorem keysNodup_objSet (o : JObj) (k : String) (v : JVal)
    (h : keysNodup o) : keysNodup (objSet o k v) := by
  by_cases hany : o.any (fun e => e.1 == k)
  · unfold keysNodup
    rw [objSet_eq_update o k v hany, keys_update]
    exact h
  · have hnotmem : k ∉ o.map (fun e => e.1) := by
      intro hmem
      rcases List.mem_map.mp hmem with ⟨e, hmemo, hk⟩
      exact hany (List.any_eq_true.mpr ⟨e, hmemo, by simp [hk]⟩)
    unfold keysNodup at h ⊢
    rw [objSet_eq_append o k v hany, List.map_append]
    simp [List.nodup_append, h, hnotmem, List.disjoint_left]

theorem keysNodup_objSpread (base extra : JObj) (h : keysNodup base) :
    keysNodup (objSpread base extra) := by
  induction extra generalizing base with
  | nil => exact h
  | cons e es ih => exact ih (objSet base e.1 e.2) (keysNodup_objSet base e.1 e.2 h)

theorem objSpread_nil (base : JObj) : objSpread base [] = base := rfl

theorem objSpread_fresh_append (acc extra : JObj)
    (hfresh : ∀ a ∈ extra.map (fun e => e.1), a ∉ acc.map (fun e => e.1))
    (hnd : keysNodup extra) : objSpread acc extra = acc ++ extra := by
  induction extra generalizing acc with
  | nil => simp [objSpread_nil]
  | cons e es ih =>
    have hkey : e.1 ∉ acc.map (fun x => x.1) := hfresh e.1 (by simp)
    have hany : ¬ acc.any (fun x => x.1 == e.1) := by
      intro hc
      rcases List.any_eq_true.mp hc with ⟨x, hmem, hx⟩
      exact hkey (List.mem_map.mpr ⟨x, hmem, eq_of_beq hx⟩)
    have hstep : objSet acc e.1 e.2 = acc ++ [e] := by
      rw [objSet_eq_append acc e.1 e.2 hany]
    have hnotin : e.1 ∉ es.map (fun x => x.1) := (List.nodup_cons.mp hnd).1
    have hfresh' : ∀ a ∈ es.map (fun x => x.1),
        a ∉ (acc ++ [e]).map (fun x => x.1) := by
      intro a ha
      rw [List.map_append]
      intro hmem
      rcases List.mem_append.mp hmem with hacc | hsingle
      · exact hfresh a (by simp [ha]) hacc
      · simp only [List.map_cons, List.map_nil, List.mem_singleton] at hsingle
        subst hsingle
        exact hnotin ha
    show objSpread (objSet acc e.1 e.2) es = acc ++ e :: es
    rw [hstep, ih (acc ++ [e]) hfresh' (List.nodup_cons.mp hnd).2,
      List.append_assoc]
    rfl

theorem objSet_cons_key_head (k k' : String) (w v : JVal) (t : JObj) :
    ∃ w' t', objSet ((k, w) :: t) k' v = (k, w') :: t' := by
  by_cases hany : ((k, w) :: t).any (fun e => e.1 == k')
  · rw [objSet_eq_update ((k, w) :: t) k' v hany, List.map_cons]
    by_cases hk : k = k'
    · subst hk
      refine ⟨v, t.map (fun e => if e.1 == k then (k, v) else e), ?_⟩
      rw [if_pos (by simp)]
    · refine ⟨w, t.map (fun e => if e.1 == k' then (k', v) else e), ?_⟩
      rw [if_neg (by simp [hk])]
  · rw [objSet_eq_append ((k, w) :: t) k' v hany, List.cons_append]
    exact ⟨w, _, rfl⟩

theorem objSpread_cons_key_head (extra : JObj) (k : String) :
    ∀ (w : JVal) (t : JObj), ∃ w' t',
      objSpread ((k, w) :: t) extra = (k, w') :: t' := by
  induction extra with
  | nil => exact fun w t => ⟨w, t, rfl⟩
  | cons e es ih =>
    intro w t
    rcases objSet_cons_key_head k e.1 w e.2 t with ⟨w'', t'', hset⟩
    rcases ih w'' t'' with ⟨w', t', hsp⟩
    refine ⟨w', t', ?_⟩
    show objSpread (objSet ((k, w) :: t) e.1 e.2) es = _
    rw [hset, hsp]

theorem objSpread_singleton_self (k : String) (v w : JVal) (rest : JObj)
    (hnd : keysNodup ((k, w) :: rest)) :
    objSpread [(k, v)] ((k, w) :: rest) = (k, w) :: rest := by
  have hstep : objSet [(k, v)] k w = [(k, w)] := by
    rw [objSet_eq_update [(k, v)] k w (by simp)]
    simp
  show objSpread (objSet [(k, v)] k w) rest = (k, w) :: rest
  rw [hstep]
  have hnotin : k ∉ rest.map (fun x => x.1) := (List.nodup_cons.mp hnd).1
  have hfresh : ∀ a ∈ rest.map (fun x => x.1),
      a ∉ ([(k, w)] : JObj).map (fun x => x.1) := by
    intro a ha
    simp only [List.map_cons, List.map_nil, List.mem_singleton]
    intro hk
    subst hk
    exact hnotin ha
  rw [objSpread_fresh_append [(k, w)] rest hfresh (List.nodup_cons.mp hnd).2]
  rfl

/- ---------------------------------------------------------------------------
Inversion lemmas for the record mapper
--------------------------------------------------------------------------- -/

theorem extractRecordId_ok_inv (resource : ScopedResourceName) (ro : JObj)
    (idv : JVal) (h : extractRecordId resource ro = .ok idv) :
    jGetVal ro (scopedResourceMeta resource).idField = some idv ∧
      isIdentifierValue idv = true := by
  simp only [extractRecordId] at h
  cases hjv : jGetVal ro (scopedResourceMeta resource).idField with
  | none => rw [hjv] at h; cases h
  | some v =>
    rw [hjv] at h
    cases v with
    | str s => cases h; exact ⟨rfl, rfl⟩
    | num n => cases h; exact ⟨rfl, rfl⟩
    | undefined => cases h
    | null => cases h
    | bool b => cases h
    | arr xs => cases h
    | obj fields => cases h

theorem extractRecordId_of_jGetVal (resource : ScopedResourceName) (ro : JObj)
    (idv : JVal)
    (hjv : jGetVal ro (scopedResourceMeta resource).idField = some idv)
    (hid : isIdentifierValue idv = true) :
    extractRecordId resource ro = .ok idv := by
  simp only [extractRecordId]
  rw [hjv]
  cases idv with
  | str s => rfl
  | num n => rfl
  | undefined => cases hid
  | null => cases hid
  | bool b => cases hid
  | arr xs => cases hid
  | obj fields => cases hid

theorem draftOf_of_none (ro : JObj) (h : jGetVal ro "draft" = none) :
    draftOf ro = .ok [] := by
  unfold draftOf jGetValD
  rw [h]
  rfl

theorem draftOf_of_obj (ro : JObj) (d : JObj)
    (h : jGetVal ro "draft" = some (.obj d)) : draftOf ro = .ok d := by
  unfold draftOf jGetValD
  rw [h]
  rfl

theorem mapRecordToRaRecord_obj (resource : ScopedResourceName) (ro : JObj) :
    mapRecordToRaRecord resource (.obj ro) =
      (extractRecordId resource ro).bind (fun idv =>
        (draftOf ro).map (fun d => objSpread (objSpread [("id", idv)] ro) d)) := by
  unfold mapRecordToRaRecord ensureObject
  cases hex : extractRecordId resource ro with
  | error e => simp [Except.bind, Bind.bind, hex]
  | ok idv =>
    cases hd : draftOf ro with
    | error e => simp [Except.bind, Bind.bind, Except.map, hex, hd]
    | ok d => simp [Except.bind, Bind.bind, Except.map, hex, hd]

theorem mapRecordToRaRecord_ok_inv (resource : ScopedResourceName) (ro : JObj)
    (out : JObj) (h : mapRecordToRaRecord resource (.obj ro) = .ok out) :
    ∃ idv d, extractRecordId resource ro = .ok idv ∧ draftOf ro = .ok d ∧
      out = objSpread (objSpread [("id", idv)] ro) d := by
  rw [mapRecordToRaRecord_obj] at h
  cases hex : extractRecordId resource ro with
  | error e => rw [hex] at h; cases h
  | ok idv =>
    rw [hex] at h
    cases hd : draftOf ro with
    | error e => rw [hd] at h; cases h
    | ok d =>
      rw [hd] at h
      refine ⟨idv, d, rfl, rfl, ?_⟩
      cases h
      rfl

theorem idField_ne_id (resource : ScopedResourceName) :
    (scopedResourceMeta resource).idField ≠ "id" := by
  cases resource <;> simp [scopedResourceMeta]

/- ---------------------------------------------------------------------------
Claim theorems
--------------------------------------------------------------------------- -/

/-- Claim C4: for every input value of shape
`{ error: { code: string, message: string, details } }` — including values that
simultaneously match the validation-error detail-array shape, since the
structured-error rule is checked first and no hypothesis here excludes a
`detail` field — and every status `S`, `normalizeApiError` returns the backend
message, status `S`, `fieldErrors = { "root.serverError": message }`, and
preserves `code` and `details` as auxiliary metadata. -/
theorem claim_C4 (vf ef : JObj) (status : Int) (c m : String)
    (herr : jGetVal vf "error" = some (.obj ef))
    (hcode : jGetVal ef "code" = some (.str c))
    (hmsg : jGetVal ef "message" = some (.str m)) :
    normalizeApiError (.value (.obj vf)) status =
      ⟨m, status, some ⟨some c, jGetVal ef "details", some [("root.serverError", m)]⟩⟩ := by
  have hresp : isErrorResponse (.obj vf) = true := by
    unfold isErrorResponse
    simp [isObject, jGetD, jGet, herr, hcode, hmsg, isString]
  simp only [normalizeApiError]
  rw [if_pos hresp]
  simp [jGetD, jGet, herr, hcode, hmsg, strOf]

/-- Claim C4 witness: a concrete payload carrying both a structured `error`
object and a (vacuous) `detail` array normalizes through the structured-error
rule. -/
theorem claim_C4_witness :
    normalizeApiError (.value (.obj
      [("error", .obj [("code", .str "conflict"), ("message", .str "Boom")]),
       ("detail", .arr [])])) 409 =
      ⟨"Boom", 409, some ⟨some "conflict", none,
        some [("root.serverError", "Boom")]⟩⟩ :=
  claim_C4 [("error", .obj [("code", .str "conflict"), ("message", .str "Boom")]),
            ("detail", .arr [])]
    [("code", .str "conflict"), ("message", .str "Boom")] 409 "conflict" "Boom"
    rfl rfl rfl

/-- Claim C7: for every adapter, resource and parameters, the provider's
`delete` and `deleteMany` reject with the fixed 405 not-supported error; the
result does not depend on the adapter, so no adapter call (and hence no
network request) is ever made. -/
theorem claim_C7 (adapter : AdapterModel) (resource : String) (p q : JVal) :
    providerDelete adapter resource p = .error deleteNotSupportedError ∧
    providerDeleteMany adapter resource q = .error deleteNotSupportedError ∧
    deleteNotSupportedError.message =
      "Delete is not supported for these resources by the current API." ∧
    deleteNotSupportedError.status = 405 :=
  ⟨rfl, rfl, rfl, rfl⟩

/-- The version guard rejects every rational that is not an integer `≥ 1`. -/
theorem positiveIntegerOrUndefined_fails (q : Rat)
    (hq : ¬(q.den = 1 ∧ 1 ≤ q)) :
    positiveIntegerOrUndefined (some q) = .error versionGuardError := by
  simp only [positiveIntegerOrUndefined]
  have hcond : (!(q.den == 1) || decide (q < 1)) = true := by
    by_cases hden : q.den = 1
    · have hlt : q < 1 := by
        rcases not_and_or.mp hq with h | h
        · exact absurd hden h
        · exact lt_of_not_le h
      simp [hlt]
    · simp [hden]
  rw [if_pos hcond]

/-- Claim C6: `positiveIntegerOrUndefined` passes `undefined` and `3` through,
rejects every value that is not an integer `≥ 1` with a 400-status field error
keyed on `version`, and this rejection happens while the bundle request is
being constructed — before the request value that would be sent over the
network exists. -/
theorem claim_C6 :
    positiveIntegerOrUndefined none = .ok none ∧
    positiveIntegerOrUndefined (some 3) = .ok (some 3) ∧
    (∀ q : Rat, ¬(q.den = 1 ∧ 1 ≤ q) →
      positiveIntegerOrUndefined (some q) = .error versionGuardError) ∧
    versionGuardError.status = 400 ∧
    (∃ errs, versionGuardError.body = some ⟨none, none, some errs⟩ ∧
      strLookup errs "version" =
        some "Must be an integer greater than or equal to 1") ∧
    (∀ (resource : ScopedResourceName) (id : String)
        (stage : Option ResourceStage) (q : Rat), ¬(q.den = 1 ∧ 1 ≤ q) →
      getBundleRequest resource id ⟨stage, some q⟩ = .error versionGuardError) := by
  refine ⟨rfl, rfl, positiveIntegerOrUndefined_fails, rfl, ⟨_, rfl, rfl⟩, ?_⟩
  intro resource id stage q hq
  unfold getBundleRequest bundleQueryFor
  rw [positiveIntegerOrUndefined_fails q hq]
  rfl

/-- Claim C6 witness: the guard rejects `1.5` and a bundle query with version
`0` fails before a request is built; `undefined` and `3` pass through. -/
theorem claim_C6_witness :
    positiveIntegerOrUndefined (some (mkRat 3 2)) = .error versionGuardError ∧
    getBundleRequest .iconSets "icons-a" ⟨none, some 0⟩ =
      .error versionGuardError ∧
    positiveIntegerOrUndefined none = .ok none ∧
    positiveIntegerOrUndefined (some 3) = .ok (some 3) :=
  ⟨claim_C6.2.2.1 (mkRat 3 2) (by decide),
   claim_C6.2.2.2.2.2 .iconSets "icons-a" none 0 (by decide),
   claim_C6.1, claim_C6.2.1⟩

/-- Claim C8 (amended): `normalizeApiError` is a total function — modelled
over every constructor of its input type — and always returns an error with a
message and the supplied status; every branch other than the already-normalized
passthrough also attaches a `fieldErrors` map.  The passthrough returns the
input `HttpError` unchanged, which may lack a `fieldErrors` map. -/
theorem claim_C8 :
    (∀ (e : HttpError) (status : Int),
      normalizeApiError (.httpError e) status = e) ∧
    (∀ (msg : String) (status : Int),
      normalizeApiError (.jsError msg) status =
        ⟨msg, status, some ⟨none, none, some [("root.serverError", msg)]⟩⟩) ∧
    (∀ (v : JVal) (status : Int), ∃ b,
      (normalizeApiError (.value v) status).body = some b ∧
      b.errors.isSome = true ∧
      (normalizeApiError (.value v) status).status = status) := by
  refine ⟨fun e status => rfl, fun msg status => rfl, fun v status => ?_⟩
  simp only [normalizeApiError]
  split_ifs <;> exact ⟨_, rfl, rfl, rfl⟩

/-- Claim C8 counterexample: an already-normalized `HttpError` constructed
without a body (as `ensureScopedResource` does) passes through unchanged, so
the result carries no `fieldErrors` map — refuting the claim that the result
always has one. -/
theorem claim_C8_counterexample :
    (normalizeApiError (.httpError ⟨"boom", 418, none⟩) 500).body = none ∧
    (normalizeApiError (.httpError ⟨"boom", 418, none⟩) 500).message = "boom" :=
  ⟨rfl, rfl⟩

/-- Claim C2: the flatten is an ordered shallow merge in which draft fields
win: for every accepted record (a JS object, hence with pairwise-distinct
keys) whose draft carries `name = "Alpha"` while the top level has no `name`,
the output's `name` is `"Alpha"`; and on every already-flat record (no `draft`
field) the flatten is idempotent — flattening its own output again returns it
unchanged. -/
theorem claim_C2 :
    (∀ (resource : ScopedResourceName) (ro d out : JObj),
      mapRecordToRaRecord resource (.obj ro) = .ok out →
      jGetVal ro "draft" = some (.obj d) →
      keysNodup d →
      jGetVal d "name" = some (.str "Alpha") →
      jGetVal ro "name" = none →
      jGetVal out "name" = some (.str "Alpha")) ∧
    (∀ (resource : ScopedResourceName) (ro out : JObj),
      keysNodup ro →
      jGetVal ro "draft" = none →
      mapRecordToRaRecord resource (.obj ro) = .ok out →
      mapRecordToRaRecord resource (.obj out) = .ok out) := by
  constructor
  · intro resource ro d out h hdraft hnd hname _hroname
    rcases mapRecordToRaRecord_ok_inv resource ro out h with ⟨idv, d', hex, hd, hout⟩
    rw [draftOf_of_obj ro d hdraft] at hd
    cases hd
    subst hout
    rw [jGetVal_objSpread]
    rw [lookupLast_eq_jGetVal_of_nodup d "name" hnd, hname]
  · intro resource ro out hnd hdraft h
    rcases mapRecordToRaRecord_ok_inv resource ro out h with ⟨idv, d, hex, hd, hout⟩
    have hdnil : d = [] := by
      rw [draftOf_of_none ro hdraft] at hd
      cases hd
      rfl
    subst hdnil
    rw [objSpread_nil] at hout
    rcases extractRecordId_ok_inv resource ro idv hex with ⟨hjv, hid⟩
    have hne : (scopedResourceMeta resource).idField ≠ "id" := idField_ne_id resource
    have hjvout : jGetVal out (scopedResourceMeta resource).idField = some idv := by
      subst hout
      rw [jGetVal_objSpread]
      rw [lookupLast_eq_jGetVal_of_nodup ro _ hnd, hjv]
    have hexout : extractRecordId resource out = .ok idv :=
      extractRecordId_of_jGetVal resource out idv hjvout hid
    have hdraftout : jGetVal out "draft" = none := by
      subst hout
      rw [jGetVal_objSpread]
      have h1 : lookupLast ro "draft" = none :=
        (lookupLast_eq_none_iff ro "draft").mpr
          ((jGetVal_eq_none_iff ro "draft").mp hdraft)
      rw [h1]
      rfl
    have hdout : draftOf out = .ok [] := draftOf_of_none out hdraftout
    have hnodupout : keysNodup out := by
      subst hout
      exact keysNodup_objSpread [("id", idv)] ro (by simp [keysNodup])
    have hshape : ∃ w t, out = ("id", w) :: t := by
      subst hout
      rcases objSpread_cons_key_head ro "id" idv [] with ⟨w, t, hsp⟩
      exact ⟨w, t, hsp⟩
    rcases hshape with ⟨w, t, hsh⟩
    have hident : objSpread [("id", idv)] out = out := by
      rw [hsh]
      exact objSpread_singleton_self "id" idv w t (hsh ▸ hnodupout)
    rw [mapRecordToRaRecord_obj, hexout, hdout]
    simp only [Except.bind, Except.map, objSpread_nil]
    rw [hident]

/-- Claim C2 witness: a concrete record with `draft.name = "Alpha"` and no
top-level `name` flattens to `name = "Alpha"`, and re-flattening the flat
output of a draft-free record returns it unchanged. -/
theorem claim_C2_witness :
    jGetVal [("id", JVal.str "icons-a"), ("iconSetId", JVal.str "icons-a"),
        ("draft", JVal.obj [("name", JVal.str "Alpha")]),
        ("name", JVal.str "Alpha")] "name" = some (.str "Alpha") ∧
    mapRecordToRaRecord .iconSets (.obj
        [("id", JVal.str "icons-b"), ("iconSetId", JVal.str "icons-b"),
         ("name", JVal.str "N")]) =
      .ok [("id", JVal.str "icons-b"), ("iconSetId", JVal.str "icons-b"),
           ("name", JVal.str "N")] :=
  ⟨claim_C2.1 .iconSets
      [("iconSetId", JVal.str "icons-a"),
       ("draft", JVal.obj [("name", JVal.str "Alpha")])]
      [("name", JVal.str "Alpha")]
      [("id", JVal.str "icons-a"), ("iconSetId", JVal.str "icons-a"),
       ("draft", JVal.obj [("name", JVal.str "Alpha")]),
       ("name", JVal.str "Alpha")]
      rfl rfl (by decide) rfl rfl,
   claim_C2.2 .iconSets [("iconSetId", JVal.str "icons-b"), ("name", JVal.str "N")]
      [("id", JVal.str "icons-b"), ("iconSetId", JVal.str "icons-b"),
       ("name", JVal.str "N")]
      (by decide) rfl rfl⟩

/-- Claim C5 (amended): for every accepted record, the flattened output's `id`
equals the resource's identifier-field value taken from the top level,
provided neither the record itself nor its draft object carries an explicit
`id` field (the record and draft are spread after the derived `id`, so such a
field would overwrite it); and the mapper fails with the missing-identifier
error whenever the identifier field is absent or not a string/number. -/
theorem claim_C5 :
    (∀ (resource : ScopedResourceName) (ro out : JObj) (idv : JVal),
      mapRecordToRaRecord resource (.obj ro) = .ok out →
      extractRecordId resource ro = .ok idv →
      jGetVal ro "id" = none →
      (∀ d : JObj, jGetVal ro "draft" = some (.obj d) → jGetVal d "id" = none) →
      jGetVal out "id" = some idv) ∧
    (∀ (resource : ScopedResourceName) (ro : JObj) (e : HttpError),
      extractRecordId resource ro = .error e →
      mapRecordToRaRecord resource (.obj ro) = .error e) ∧
    (∀ (resource : ScopedResourceName) (ro : JObj),
      (∀ v, jGetVal ro (scopedResourceMeta resource).idField = some v →
        isIdentifierValue v = false) →
      extractRecordId resource ro = .error (missingIdError resource)) := by
  refine ⟨?_, ?_, ?_⟩
  · intro resource ro out idv h hex hro hdr
    rcases mapRecordToRaRecord_ok_inv resource ro out h with ⟨idv', d, hex', hd, hout⟩
    rw [hex] at hex'
    cases hex'
    subst hout
    have hdnone : jGetVal d "id" = none := by
      unfold draftOf jGetValD at hd
      cases hv : jGetVal ro "draft" with
      | none =>
        rw [hv] at hd
        cases hd
        rfl
      | some v =>
        rw [hv] at hd
        cases v with
        | undefined => cases hd; rfl
        | obj dd =>
          have : d = dd := by
            simp only [Option.getD, ensureObject] at hd
            cases hd
            rfl
          subst this
          exact hdr d hv
        | null => cases hd
        | bool b => cases hd
        | num n => cases hd
        | str s => cases hd
        | arr xs => cases hd
    rw [jGetVal_objSpread]
    rw [(lookupLast_eq_none_iff d "id").mpr ((jGetVal_eq_none_iff d "id").mp hdnone)]
    rw [jGetVal_objSpread]
    rw [(lookupLast_eq_none_iff ro "id").mpr ((jGetVal_eq_none_iff ro "id").mp hro)]
    rw [jGetVal_cons]
    rw [if_pos (by simp)]
  · intro resource ro e hex
    rw [mapRecordToRaRecord_obj, hex]
    rfl
  · intro resource ro h
    simp only [extractRecordId]
    cases hjv : jGetVal ro (scopedResourceMeta resource).idField with
    | none => rfl
    | some v =>
      have hv := h v hjv
      cases v with
      | str s => cases hv
      | num n => cases hv
      | undefined => rfl
      | null => rfl
      | bool b => rfl
      | arr xs => rfl
      | obj fields => rfl

/-- Claim C5 counterexample: a record carrying its own `id` field is accepted,
but the flattened output's `id` is that explicit field's value `"zzz"`, not
the identifier-field value `"a"` — refuting the claim that the output's `id`
always equals the identifier-field value. -/
theorem claim_C5_counterexample :
    mapRecordToRaRecord .iconSets
        (.obj [("iconSetId", JVal.str "a"), ("id", JVal.str "zzz")]) =
      .ok [("id", JVal.str "zzz"), ("iconSetId", JVal.str "a")] ∧
    extractRecordId .iconSets [("iconSetId", JVal.str "a"), ("id", JVal.str "zzz")] =
      .ok (.str "a") ∧
    jGetVal [("id", JVal.str "zzz"), ("iconSetId", JVal.str "a")] "id" =
      some (.str "zzz") ∧
    JVal.str "zzz" ≠ JVal.str "a" :=
  ⟨rfl, rfl, rfl, by intro h; injection h with h'; exact absurd h' (by decide)⟩

/-- Claim C5 witness: on a record with no explicit `id` anywhere, the
flattened output's `id` is the identifier-field value. -/
theorem claim_C5_witness :
    jGetVal [("id", JVal.str "a"), ("iconSetId", JVal.str "a")] "id" =
      some (.str "a") ∧
    extractRecordId .iconSets [("name", JVal.str "x")] =
      .error (missingIdError .iconSets) :=
  ⟨claim_C5.1 .iconSets [("iconSetId", JVal.str "a")]
      [("id", JVal.str "a"), ("iconSetId", JVal.str "a")] (.str "a")
      rfl rfl rfl (fun _d hd => nomatch hd),
   claim_C5.2.2 .iconSets [("name", JVal.str "x")]
      (fun _v hv => nomatch hv)⟩

/-- Claim C10 (amended): the flatten keeps the nested `draft` sub-object
unchanged alongside the copied-up draft fields, provided the draft object does
not itself contain a field named `draft` (its fields are spread last, so such
a field would overwrite the kept sub-object). -/
theorem claim_C10 (resource : ScopedResourceName) (ro d out : JObj)
    (h : mapRecordToRaRecord resource (.obj ro) = .ok out)
    (hnd : keysNodup ro)
    (hdraft : jGetVal ro "draft" = some (.obj d))
    (hndd : keysNodup d)
    (hdd : jGetVal d "draft" = none) :
    jGetVal out "draft" = some (.obj d) ∧
    ∀ e ∈ d, jGetVal out e.1 = some e.2 := by
  rcases mapRecordToRaRecord_ok_inv resource ro out h with ⟨idv, d', hex, hd, hout⟩
  rw [draftOf_of_obj ro d hdraft] at hd
  cases hd
  subst hout
  constructor
  · rw [jGetVal_objSpread]
    rw [(lookupLast_eq_none_iff d "draft").mpr
      ((jGetVal_eq_none_iff d "draft").mp hdd)]
    rw [jGetVal_objSpread]
    rw [lookupLast_eq_jGetVal_of_nodup ro "draft" hnd, hdraft]
  · intro e hmem
    rw [jGetVal_objSpread]
    rw [lookupLast_eq_jGetVal_of_nodup d e.1 hndd]
    rw [jGetVal_of_mem_of_nodup d e.1 e.2 hndd hmem]

/-- Claim C10 witness: with a well-formed draft, the flattened output still
carries the nested `draft` object unchanged and every draft field copied up. -/
theorem claim_C10_witness :
    jGetVal [("id", JVal.str "a"), ("iconSetId", JVal.str "a"),
        ("draft", JVal.obj [("name", JVal.str "n")]),
        ("name", JVal.str "n")] "draft" =
      some (.obj [("name", JVal.str "n")]) ∧
    ∀ e ∈ ([("name", JVal.str "n")] : JObj),
      jGetVal [("id", JVal.str "a"), ("iconSetId", JVal.str "a"),
        ("draft", JVal.obj [("name", JVal.str "n")]),
        ("name", JVal.str "n")] e.1 = some e.2 :=
  claim_C10 .iconSets
    [("iconSetId", JVal.str "a"), ("draft", JVal.obj [("name", JVal.str "n")])]
    [("name", JVal.str "n")]
    [("id", JVal.str "a"), ("iconSetId", JVal.str "a"),
     ("draft", JVal.obj [("name", JVal.str "n")]), ("name", JVal.str "n")]
    rfl (by decide) rfl (by decide) rfl

/-- Claim C10 counterexample: when the draft object itself contains a `draft`
field, the flatten overwrites the kept sub-object — the output's `draft` is
the string `"weird"`, not the original draft object — refuting the claim as
stated for every accepted record with a draft. -/
theorem claim_C10_counterexample :
    mapRecordToRaRecord .iconSets (.obj
        [("iconSetId", JVal.str "a"),
         ("draft", JVal.obj [("draft", JVal.str "weird"), ("name", JVal.str "n")])]) =
      .ok [("id", JVal.str "a"), ("iconSetId", JVal.str "a"),
           ("draft", JVal.str "weird"), ("name", JVal.str "n")] ∧
    jGetVal [("id", JVal.str "a"), ("iconSetId", JVal.str "a"),
        ("draft", JVal.str "weird"), ("name", JVal.str "n")] "draft" =
      some (.str "weird") ∧
    JVal.str "weird" ≠
      JVal.obj [("draft", JVal.str "weird"), ("name", JVal.str "n")] :=
  ⟨rfl, rfl, by intro h; cases h⟩

/-- Claim C1 (amended): for every input value matching the validation-error
shape `{ detail: [{ loc, msg, type }, ...] }` and not the structured-error
shape (which is checked first and takes precedence), `normalizeApiError`
returns status `S` and a `fieldErrors` map built by, for each issue in order,
assigning `msg` under the path obtained by joining the `loc` segments with `.`
after dropping every `"body"` segment — not only a leading one — (an empty
result maps to `root.serverError`), and a top-level message equal to the first
field error's message, or the generic validation-failed fallback when the
issue list is empty. -/
theorem claim_C1 (v : JVal) (status : Int)
    (hval : isHttpValidationError v = true)
    (herr : isErrorResponse v = false) :
    normalizeApiError (.value v) status =
      ⟨((((detailIssues v).foldl (fun acc issue =>
            strAssign acc (toFieldPath (issueLoc issue)) (issueMsg issue))
            []).head?).map (fun e => e.2)).getD
          "Validation failed for this request.",
        status,
        some ⟨none, none, some ((detailIssues v).foldl (fun acc issue =>
          strAssign acc (toFieldPath (issueLoc issue)) (issueMsg issue)) [])⟩⟩ := by
  simp only [normalizeApiError]
  rw [if_neg (by simp [herr]), if_pos hval]
  rfl

/-- Claim C1 witness: the spec's own two-issue example normalizes to
`{name: "Field required", "a.b": "X"}` with the first field error as the
top-level message. -/
theorem claim_C1_witness :
    normalizeApiError (.value (.obj [("detail", .arr
      [ .obj [("loc", .arr [.str "body", .str "name"]),
              ("msg", .str "Field required"), ("type", .str "missing")],
        .obj [("loc", .arr [.str "body", .str "a", .str "b"]),
              ("msg", .str "X"), ("type", .str "value_error")]])])) 422 =
      ⟨"Field required", 422, some ⟨none, none,
        some [("name", "Field required"), ("a.b", "X")]⟩⟩ :=
  claim_C1 (.obj [("detail", .arr
      [ .obj [("loc", .arr [.str "body", .str "name"]),
              ("msg", .str "Field required"), ("type", .str "missing")],
        .obj [("loc", .arr [.str "body", .str "a", .str "b"]),
              ("msg", .str "X"), ("type", .str "value_error")]])]) 422 rfl rfl

/-- Claim C1 counterexample: the claim says only a leading `body` segment is
dropped, so `loc = ["body", "a", "body"]` should produce the field path
`"a.body"`; the code filters every `"body"` segment and produces `"a"`, and no
`"a.body"` key exists in the result. -/
theorem claim_C1_counterexample :
    normalizeApiError (.value (.obj [("detail", .arr
      [.obj [("loc", .arr [.str "body", .str "a", .str "body"]),
             ("msg", .str "X"), ("type", .str "t")]])])) 422 =
      ⟨"X", 422, some ⟨none, none, some [("a", "X")]⟩⟩ ∧
    strLookup [("a", "X")] "a.body" = none :=
  ⟨rfl, rfl⟩

/- ---------------------------------------------------------------------------
Claim C9: out-of-scope resource names
--------------------------------------------------------------------------- -/

theorem toScopedResourceName_eq_none (resource : String)
    (h : isScopedResourceName resource = false) :
    toScopedResourceName resource = none := by
  by_cases h1 : resource = "icon-sets"
  · subst h1; exact absurd h (by decide)
  by_cases h2 : resource = "layout-sets"
  · subst h2; exact absurd h (by decide)
  by_cases h3 : resource = "link-sets"
  · subst h3; exact absurd h (by decide)
  by_cases h4 : resource = "graph-types"
  · subst h4; exact absurd h (by decide)
  by_cases h5 : resource = "themes"
  · subst h5; exact absurd h (by decide)
  unfold toScopedResourceName
  rw [if_neg (by simp [h1]), if_neg (by simp [h2]), if_neg (by simp [h3]),
    if_neg (by simp [h4]), if_neg (by simp [h5])]

theorem ensureScopedResource_out (resource : String)
    (h : isScopedResourceName resource = false) :
    ensureScopedResource resource = .error (outOfScopeError resource) := by
  unfold ensureScopedResource
  rw [toScopedResourceName_eq_none resource h]

theorem charListStartsWith_append (l t : List Char) :
    charListStartsWith (l ++ t) l = true := by
  induction l with
  | nil => cases t <;> rfl
  | cons a as ih => simp [charListStartsWith, ih]

theorem charListContains_sandwich (p l s : List Char) :
    charListContains (p ++ (l ++ s)) l = true := by
  induction p with
  | nil =>
    cases l with
    | nil => cases s <;> rfl
    | cons b bs =>
      have hsw : charListStartsWith ((b :: bs) ++ s) (b :: bs) = true :=
        charListStartsWith_append (b :: bs) s
      rw [List.cons_append] at hsw
      show charListContains (b :: (bs ++ s)) (b :: bs) = true
      unfold charListContains
      simp [hsw]
  | cons c cs ih => simp [charListContains, ih]

theorem jsIncludes_sandwich (p mid s : String) :
    jsIncludes (p ++ (mid ++ s)) mid = true := by
  unfold jsIncludes
  rw [String.data_append, String.data_append]
  exact charListContains_sandwich p.data mid.data s.data

/-- The out-of-scope error names the offending resource in its message. -/
theorem outOfScopeError_message_names (resource : String) :
    jsIncludes (outOfScopeError resource).message resource = true := by
  have hmsg : (outOfScopeError resource).message =
      "Resource '" ++ (resource ++ "' is out of scope") := rfl
  rw [hmsg]
  exact jsIncludes_sandwich "Resource '" resource "' is out of scope"

/-- Claim C9 (amended): for every resource-name string outside the closed
five-element scoped set, each of the provider operations `getList`, `getOne`,
`getMany`, `getManyReference`, `create`, `update` and `updateMany` rejects it
with the 400-status out-of-scope error whose message names the resource,
independently of the adapter — so before any adapter call; `delete` and
`deleteMany` instead reject every invocation with the fixed 405 not-supported
error, whose message does not name the resource. -/
theorem claim_C9 (adapter : AdapterModel) (resource : String)
    (h : isScopedResourceName resource = false)
    (p1 : GetListParams) (p2 : GetOneParams) (p3 : GetManyParams)
    (p4 : GetManyReferenceParams) (p5 : CreateParams) (p6 : UpdateParams)
    (p7 : UpdateManyParams) :
    providerGetList adapter resource p1 = .error (outOfScopeError resource) ∧
    providerGetOne adapter resource p2 = .error (outOfScopeError resource) ∧
    providerGetMany adapter resource p3 = .error (outOfScopeError resource) ∧
    providerGetManyReference adapter resource p4 =
      .error (outOfScopeError resource) ∧
    providerCreate adapter resource p5 = .error (outOfScopeError resource) ∧
    providerUpdate adapter resource p6 = .error (outOfScopeError resource) ∧
    providerUpdateMany adapter resource p7 = .error (outOfScopeError resource) ∧
    (outOfScopeError resource).status = 400 ∧
    jsIncludes (outOfScopeError resource).message resource = true := by
  have he := ensureScopedResource_out resource h
  refine ⟨?_, ?_, ?_, ?_, ?_, ?_, ?_, rfl, outOfScopeError_message_names resource⟩
  · unfold providerGetList; rw [he]; rfl
  · unfold providerGetOne; rw [he]; rfl
  · unfold providerGetMany; rw [he]; rfl
  · unfold providerGetManyReference; rw [he]; rfl
  · unfold providerCreate; rw [he]; rfl
  · unfold providerUpdate; rw [he]; rfl
  · unfold providerUpdateMany; rw [he]; rfl

/-- A trivial adapter instance used to state closed facts about the provider. -/
def trivialAdapter : AdapterModel where
  list _ := .ok []
  get _ _ := .ok .null
  create _ _ := .ok .null
  update _ _ _ := .ok .null
  delete _ _ := .ok ()

/-- Claim C9 witness: every operation rejects the out-of-scope name
`"widgets"` with the 400 error naming it. -/
theorem claim_C9_witness :
    providerGetList trivialAdapter "widgets" {} =
      .error (outOfScopeError "widgets") ∧
    providerCreate trivialAdapter "widgets" ⟨.null⟩ =
      .error (outOfScopeError "widgets") ∧
    (outOfScopeError "widgets").status = 400 ∧
    jsIncludes (outOfScopeError "widgets").message "widgets" = true := by
  have h := claim_C9 trivialAdapter "widgets" rfl {} ⟨.null⟩ ⟨[]⟩
    ⟨"t", .null, none, none, none⟩ ⟨.null⟩ ⟨.null, .null⟩ ⟨[], .null⟩
  exact ⟨h.1, h.2.2.2.2.1, h.2.2.2.2.2.2.2.1, h.2.2.2.2.2.2.2.2⟩

/-- Claim C9 counterexample: `delete` is a data-provider operation, yet on the
out-of-scope resource `"widgets"` it rejects with the fixed 405 not-supported
message, which does not name the resource — refuting the claim that every
operation rejects with a 400-class error whose message names the resource. -/
theorem claim_C9_counterexample :
    providerDelete trivialAdapter "widgets" .null =
      .error deleteNotSupportedError ∧
    jsIncludes deleteNotSupportedError.message "widgets" = false ∧
    deleteNotSupportedError.status = 405 :=
  ⟨rfl, rfl, rfl⟩

/- ---------------------------------------------------------------------------
Claim C3: the list query engine
--------------------------------------------------------------------------- -/

/-- Spec-side description of the list query engine, following the spec's
wording: first drop every record failing a filter check — blank or absent
filter values being ignored, each kept entry checked independently (the `q`
free-text check or the exact-equality check, shared with the code as
`matchesFilterEntry`) — then stable-sort by the sort field's comparator
multiplied by `+1`/`-1` (original order preserved when there is no sort
field), then slice `[(page-1)*perPage, (page-1)*perPage + perPage)`, returning
the post-filter, pre-pagination total count. -/
def specListQuery (records : List JObj) (filter : Option JObj)
    (sort : Option SortParam) (page perPage : Int) : List JObj × Nat :=
  let kept := records.filter (fun record =>
    (filter.getD []).all (fun e =>
      isBlankFilterValue e.2 || matchesFilterEntry record e.1 e.2))
  let sorted := match sort with
    | none => kept
    | some s =>
      jsSortBy (fun left right =>
        compareValues (jGetValD left s.field) (jGetValD right s.field) *
          (if s.order = SortOrder.ASC then 1 else -1)) kept
  ((sorted.drop ((page - 1) * perPage).toNat).take perPage.toNat, kept.length)

theorem all_filter_not (f : JObj) (p q : (String × JVal) → Bool) :
    (f.filter (fun e => !(p e))).all q = f.all (fun e => p e || q e) := by
  induction f with
  | nil => rfl
  | cons e es ih =>
    by_cases hp : p e
    · simp [List.filter_cons, List.all_cons, hp, ih]
    · simp [List.filter_cons, List.all_cons, hp, ih]

/-- The early-exit loop of `matchesFilter` checks exactly the spec-side
universally-quantified condition. -/
theorem matchesFilter_eq_all (record : JObj) (filter : Option JObj) :
    matchesFilter record filter =
      (filter.getD []).all (fun e =>
        isBlankFilterValue e.2 || matchesFilterEntry record e.1 e.2) := by
  cases filter with
  | none => rfl
  | some f =>
    show (if (f.filter (fun e => !(isBlankFilterValue e.2))).isEmpty then true
      else (f.filter (fun e => !(isBlankFilterValue e.2))).all
        (fun e => matchesFilterEntry record e.1 e.2)) = _
    by_cases hemp : (f.filter (fun e => !(isBlankFilterValue e.2))).isEmpty
    · rw [if_pos hemp]
      rw [Option.getD_some, ← all_filter_not f (fun e => isBlankFilterValue e.2)
        (fun e => matchesFilterEntry record e.1 e.2)]
      rw [List.isEmpty_iff.mp hemp]
      rfl
    · rw [if_neg hemp]
      rw [Option.getD_some]
      exact all_filter_not f (fun e => isBlankFilterValue e.2)
        (fun e => matchesFilterEntry record e.1 e.2)

theorem length_jsSortInsert (lt : α → α → Bool) (x : α) (l : List α) :
    (jsSortInsert lt x l).length = l.length + 1 := by
  induction l with
  | nil => rfl
  | cons y ys ih =>
    unfold jsSortInsert
    by_cases hlt : lt x y
    · rw [if_pos hlt]
      rfl
    · rw [if_neg hlt]
      simp [ih]

theorem length_jsSortBy (cmp : α → α → Rat) (xs : List α) :
    (jsSortBy cmp xs).length = xs.length := by
  suffices h : ∀ acc : List α,
      (xs.foldl (fun acc x =>
        jsSortInsert (fun a b => decide (cmp a b < 0)) x acc) acc).length =
        acc.length + xs.length by
    simpa using h []
  induction xs with
  | nil => intro acc; simp
  | cons x xs ih =>
    intro acc
    show (xs.foldl _ (jsSortInsert _ x acc)).length = _
    rw [ih (jsSortInsert (fun a b => decide (cmp a b < 0)) x acc)]
    rw [length_jsSortInsert]
    simp only [List.length_cons]
    omega

theorem jsSlice_of_nonneg (xs : List α) (start perPage : Int)
    (hs : 0 ≤ start) (hp : 0 ≤ perPage) :
    jsSlice xs start (start + perPage) =
      (xs.drop start.toNat).take perPage.toNat := by
  simp only [jsSlice]
  have hlen0 : (0 : Int) ≤ (xs.length : Int) := Int.natCast_nonneg _
  rw [if_neg (by omega), if_neg (by omega)]
  by_cases hcase : start ≤ (xs.length : Int)
  · rw [min_eq_left hcase]
    by_cases hcase2 : start + perPage ≤ (xs.length : Int)
    · rw [min_eq_left hcase2]
      congr 1
      omega
    · rw [min_eq_right (le_of_not_le hcase2)]
      have hdlen : (xs.drop start.toNat).length = xs.length - start.toNat :=
        List.length_drop start.toNat xs
      rw [List.take_of_length_le (by rw [hdlen]; omega),
        List.take_of_length_le (by rw [hdlen]; omega)]
  · have hstart_ge : (xs.length : Int) ≤ start := le_of_not_le hcase
    rw [min_eq_right hstart_ge, min_eq_right (by omega)]
    have hdrop : xs.drop ((xs.length : Int)).toNat = [] :=
      List.drop_eq_nil_of_le (by omega)
    have hdrop2 : xs.drop start.toNat = [] :=
      List.drop_eq_nil_of_le (by omega)
    rw [hdrop, hdrop2]
    simp

/-- Claim C3: for every record list, filter, sort, and 1-indexed pagination
parameters, `paginateAndSort` first drops records failing the filter checks
(blank or absent filter values ignored), then stable-sorts by the sort field's
comparator (numeric subtraction when both values are numbers, else
case-insensitive lexicographic string comparison, negated for DESC; original
order preserved when there is no sort field), then returns the slice
`[(page-1)*perPage, (page-1)*perPage+perPage)` together with the post-filter,
pre-pagination total count — i.e. it coincides with the spec-side
`specListQuery`. -/
theorem claim_C3 (records : List JObj) (filter : Option JObj)
    (sort : Option SortParam) (page perPage : Int)
    (hpage : 1 ≤ page) (hper : 0 ≤ perPage) :
    paginateAndSort records ⟨some ⟨page, perPage⟩, sort, filter⟩ =
      specListQuery records filter sort page perPage := by
  unfold paginateAndSort specListQuery
  have hfilter : (fun record => matchesFilter record filter) =
      (fun record => (filter.getD []).all
        (fun e => isBlankFilterValue e.2 || matchesFilterEntry record e.1 e.2)) := by
    funext record
    exact matchesFilter_eq_all record filter
  rw [hfilter]
  have hmax : max (page - 1) 0 * perPage = (page - 1) * perPage := by
    rw [max_eq_left (by omega)]
  cases sort with
  | none =>
    simp only [Option.map_some', Option.getD_some, hmax]
    rw [jsSlice_of_nonneg _ _ _ (mul_nonneg (by omega) hper) hper]
  | some s =>
    simp only [Option.map_some', Option.getD_some, hmax]
    rw [jsSlice_of_nonneg _ _ _ (mul_nonneg (by omega) hper) hper]
    rw [length_jsSortBy]

/-- Claim C3 witness: over three records named Gamma/Alpha/Beta with sort
`{name, ASC}` and pagination `{page 1, perPage 2}`, the engine coincides with
the spec-side query (which evaluates to the Alpha and Beta pages with
total 3). -/
theorem claim_C3_witness :
    paginateAndSort
      [[("id", JVal.str "icons-gamma"), ("name", JVal.str "Gamma")],
       [("id", JVal.str "icons-alpha"), ("name", JVal.str "Alpha")],
       [("id", JVal.str "icons-beta"), ("name", JVal.str "Beta")]]
      ⟨some ⟨1, 2⟩, some ⟨"name", .ASC⟩, none⟩ =
    specListQuery
      [[("id", JVal.str "icons-gamma"), ("name", JVal.str "Gamma")],
       [("id", JVal.str "icons-alpha"), ("name", JVal.str "Alpha")],
       [("id", JVal.str "icons-beta"), ("name", JVal.str "Beta")]]
      none (some ⟨"name", .ASC⟩) 1 2 :=
  claim_C3
    [[("id", JVal.str "icons-gamma"), ("name", JVal.str "Gamma")],
     [("id", JVal.str "icons-alpha"), ("name", JVal.str "Alpha")],
     [("id", JVal.str "icons-beta"), ("name", JVal.str "Beta")]]
    none (some ⟨"name", .ASC⟩) 1 2 (by decide) (by decide)

end GraphSettings
